import Mathlib

/-!
Verification development for the `remarkable-cli-tooling` repository
(`resync.py`).  The Python source is shallowly embedded: Python dicts become
association lists in insertion order, exceptions become explicit error
values carried next to the (still mutated) state, and the document tree
becomes an inductive type.  Every definition is translated from the source;
definitions that instead follow the specification's words are clearly named
as such.
-/

namespace Resync

/-- Lookup in a Python dict modelled as an association list kept in
insertion order (`d[k]` read side). -/
def lookupA {α β : Type} [DecidableEq α] : List (α × β) → α → Option β
  | [], _ => none
  | (k, v) :: t, k' => if k = k' then some v else lookupA t k'

/-- Assignment `d[k] = v` on a Python dict: an existing key keeps its
position and gets the new value, a new key is appended at the end
(CPython dicts preserve insertion order). -/
def updateA {α β : Type} [DecidableEq α] : List (α × β) → α → β → List (α × β)
  | [], k, v => [(k, v)]
  | (k', v') :: t, k, v => if k' = k then (k, v) :: t else (k', v') :: updateA t k v

theorem lookupA_updateA_self {α β : Type} [DecidableEq α] (l : List (α × β)) (k : α) (v : β) :
    lookupA (updateA l k v) k = some v := by
  induction l with
  | nil => simp [updateA, lookupA]
  | cons p t ih =>
    obtain ⟨k', v'⟩ := p
    by_cases h : k' = k
    · simp [updateA, lookupA, h]
    · simp [updateA, lookupA, h, ih]

theorem lookupA_updateA_ne {α β : Type} [DecidableEq α] (l : List (α × β)) (k k' : α) (v : β)
    (h : k ≠ k') : lookupA (updateA l k v) k' = lookupA l k' := by
  induction l with
  | nil => simp [updateA, lookupA, h]
  | cons p t ih =>
    obtain ⟨k₀, v₀⟩ := p
    by_cases h0 : k₀ = k
    · subst h0
      simp [updateA, lookupA, h]
    · simp only [updateA, if_neg h0, lookupA]
      by_cases h1 : k₀ = k'
      · simp [h1]
      · simp [h1, ih]

theorem updateA_eq_of_lookupA {α β : Type} [DecidableEq α] (l : List (α × β)) (k : α) (v : β)
    (h : lookupA l k = some v) : updateA l k v = l := by
  induction l with
  | nil => simp [lookupA] at h
  | cons p t ih =>
    obtain ⟨k₀, v₀⟩ := p
    by_cases h0 : k₀ = k
    · subst h0
      simp [lookupA] at h
      simp [updateA, h]
    · simp [lookupA, h0] at h
      simp [updateA, h0, ih h]

/-- One remote metadata record, as read from a `<uuid>.metadata` JSON file.
Only the fields `resync.py` ever accesses are kept (`visibleName`,
`parent`, `deleted`, `type`). -/
structure Metadata where
  visibleName : String
  parent : String
  deleted : Bool
  type : String
deriving DecidableEq, Repr

/-- A record survives the filter at the top of the indexing loop
(`if metadata['deleted'] or metadata['parent'] == 'trash': continue`). -/
def visibleRec (m : Metadata) : Bool :=
  !m.deleted && m.parent != "trash"

/-- The Python exceptions that `resync.py` can raise in the embedded
fragments. -/
inductive PyErr where
  | fileCollision (name : String)
  | keyError (key : String)
  | typeError
  | exceptionHuh
  | jsonDecodeError
  | exitCode (n : Nat)
deriving DecidableEq, Repr

/-- The four global metadata dictionaries of `resync.py`
(`metadata_by_uuid`, `metadata_by_name`, `metadata_by_parent`,
`metadata_by_name_and_parent`). -/
structure Index where
  by_uuid : List (String × Metadata)
  by_name : List (String × List (String × Metadata))
  by_parent : List (String × List (String × Metadata))
  by_name_and_parent : List ((String × String) × (String × Metadata))
deriving DecidableEq, Repr

def emptyIndex : Index := ⟨[], [], [], []⟩

/-- The three multi-map insertions performed for a visible record before
the collision check (`metadata_by_name_and_parent` untouched). -/
def indexInsert (st : Index) (uuid : String) (m : Metadata) : Index :=
  { by_uuid := updateA st.by_uuid uuid m
    by_name := updateA st.by_name m.visibleName
      (updateA ((lookupA st.by_name m.visibleName).getD []) uuid m)
    by_parent := updateA st.by_parent m.parent
      (updateA ((lookupA st.by_parent m.parent).getD []) uuid m)
    by_name_and_parent := st.by_name_and_parent }

@[simp]
theorem indexInsert_bnp (st : Index) (uuid : String) (m : Metadata) :
    (indexInsert st uuid m).by_name_and_parent = st.by_name_and_parent := rfl

/-- Body of the loop in `retrieve_metadata` for one `(uuid, metadata)` pair:
skip invisible records, insert into the three multi-maps, then raise
`FileCollision` if `(visibleName, parent)` is already indexed, else insert
into `metadata_by_name_and_parent`.  The returned state reflects the dict
mutations performed before any exception, as in Python. -/
def indexRecord (st : Index) (uuid : String) (m : Metadata) : Index × Option PyErr :=
  if m.deleted || m.parent == "trash" then (st, none)
  else if (lookupA (indexInsert st uuid m).by_name_and_parent (m.visibleName, m.parent)).isSome then
    (indexInsert st uuid m, some (PyErr.fileCollision m.visibleName))
  else
    ({ indexInsert st uuid m with
        by_name_and_parent := updateA st.by_name_and_parent (m.visibleName, m.parent) (uuid, m) },
      none)

/-- `retrieve_metadata` (src/resync.py:162-189), modelled after JSON
parsing: the snapshot is the list of `(path stem, parsed metadata)` pairs
in stream order.  The four global dicts are threaded explicitly; a raised
`FileCollision` stops the loop but keeps the mutations made so far. -/
def retrieve_metadata (st : Index) : List (String × Metadata) → Index × Option PyErr
  | [] => (st, none)
  | (u, m) :: rest =>
    match indexRecord st u m with
    | (st', none) => retrieve_metadata st' rest
    | (st', some e) => (st', some e)

theorem retrieve_metadata_append (st : Index) (a b : List (String × Metadata)) :
    retrieve_metadata st (a ++ b) =
      match retrieve_metadata st a with
      | (st', none) => retrieve_metadata st' b
      | (st', some e) => (st', some e) := by
  induction a generalizing st with
  | nil => simp [retrieve_metadata]
  | cons p t ih =>
    obtain ⟨u, m⟩ := p
    simp only [List.cons_append, retrieve_metadata]
    cases h : indexRecord st u m with
    | mk st' e =>
      cases e with
      | none => simp [ih]
      | some e' => simp

/-- Every error `indexRecord` can produce is a `FileCollision` on the
record's own name. -/
theorem indexRecord_err_shape (st : Index) (u : String) (m : Metadata) :
    (indexRecord st u m).2 = none ∨
      (indexRecord st u m).2 = some (PyErr.fileCollision m.visibleName) := by
  unfold indexRecord
  split
  · left; rfl
  · split
    · right; rfl
    · left; rfl

/-- Every error `retrieve_metadata` can produce is a `FileCollision`. -/
theorem retrieve_metadata_err_shape (st : Index) (l : List (String × Metadata)) :
    (retrieve_metadata st l).2 = none ∨
      ∃ nm, (retrieve_metadata st l).2 = some (PyErr.fileCollision nm) := by
  induction l generalizing st with
  | nil => left; rfl
  | cons p t ih =>
    obtain ⟨u, m⟩ := p
    simp only [retrieve_metadata]
    cases h : indexRecord st u m with
    | mk st' e =>
      cases e with
      | none => exact ih st'
      | some e' =>
        rcases indexRecord_err_shape st u m with h2 | h2 <;> rw [h] at h2
        · simp at h2
        · simp at h2
          right; exact ⟨m.visibleName, by simp [h2]⟩

theorem visibleRec_cond (m : Metadata) (hv : visibleRec m = true) :
    (m.deleted || m.parent == "trash") = false := by
  simp only [visibleRec, Bool.and_eq_true, Bool.not_eq_true', bne_iff_ne] at hv
  simp [hv.1, hv.2]

theorem indexRecord_some_of_hit (st : Index) (u : String) (m : Metadata)
    (hv : visibleRec m = true)
    (hk : (lookupA st.by_name_and_parent (m.visibleName, m.parent)).isSome) :
    (indexRecord st u m).2.isSome := by
  unfold indexRecord
  rw [visibleRec_cond m hv]
  simp only [indexInsert_bnp, Bool.false_eq_true, if_false, if_pos hk]
  rfl

theorem indexRecord_hit_after (st : Index) (u : String) (m : Metadata)
    (hv : visibleRec m = true) (hok : (indexRecord st u m).2 = none) :
    (lookupA (indexRecord st u m).1.by_name_and_parent (m.visibleName, m.parent)).isSome := by
  unfold indexRecord at hok ⊢
  rw [visibleRec_cond m hv] at hok ⊢
  by_cases h2 : (lookupA st.by_name_and_parent (m.visibleName, m.parent)).isSome
  · simp [h2] at hok
  · simp only [indexInsert_bnp, Bool.false_eq_true, if_false, if_neg h2] at hok ⊢
    simp [lookupA_updateA_self]

/-- The step never removes a `metadata_by_name_and_parent` key. -/
theorem indexRecord_bnp_super (st : Index) (u : String) (m : Metadata)
    (k : String × String) (hk : (lookupA st.by_name_and_parent k).isSome) :
    (lookupA (indexRecord st u m).1.by_name_and_parent k).isSome := by
  unfold indexRecord
  split
  · exact hk
  · split
    · exact hk
    · simp only []
      by_cases h3 : (m.visibleName, m.parent) = k
      · rw [← h3]
        simp [lookupA_updateA_self]
      · rw [lookupA_updateA_ne _ _ _ _ h3]
        exact hk

/-- Keys already present in `metadata_by_name_and_parent` stay present along
any successful run of the indexing loop. -/
theorem retrieve_metadata_bnp_mono (st : Index) (l : List (String × Metadata))
    (k : String × String) (hk : (lookupA st.by_name_and_parent k).isSome)
    (hok : (retrieve_metadata st l).2 = none) :
    (lookupA (retrieve_metadata st l).1.by_name_and_parent k).isSome := by
  induction l generalizing st with
  | nil => exact hk
  | cons p t ih =>
    obtain ⟨u, m⟩ := p
    simp only [retrieve_metadata] at hok ⊢
    cases h : indexRecord st u m with
    | mk st' e =>
      cases e with
      | some e' => simp [h] at hok
      | none =>
        simp only [h] at hok ⊢
        apply ih st' _ hok
        have := indexRecord_bnp_super st u m k hk
        rwa [h] at this

/-- C1: a snapshot holding two visible records with the same
`(visibleName, parent)` always makes `retrieve_metadata` raise the
`FileCollision` error, whichever positions the two records occupy; the
index build never completes, so no write phase is ever reached. -/
theorem C1_duplicate_visible_records_raise_collision
    (l1 l2 l3 : List (String × Metadata)) (u1 u2 : String) (m1 m2 : Metadata)
    (hv1 : visibleRec m1 = true) (hv2 : visibleRec m2 = true)
    (hn : m1.visibleName = m2.visibleName) (hp : m1.parent = m2.parent) :
    ∃ nm, (retrieve_metadata emptyIndex (l1 ++ (u1, m1) :: (l2 ++ (u2, m2) :: l3))).2
      = some (PyErr.fileCollision nm) := by
  have hshape := retrieve_metadata_err_shape emptyIndex
    (l1 ++ (u1, m1) :: (l2 ++ (u2, m2) :: l3))
  rcases hshape with hnone | hsome
  · exfalso
    rw [retrieve_metadata_append] at hnone
    cases hA : retrieve_metadata emptyIndex l1 with
    | mk stA eA =>
      cases eA with
      | some e' => simp [hA] at hnone
      | none =>
        simp only [hA, retrieve_metadata] at hnone
        cases hB : indexRecord stA u1 m1 with
        | mk stB eB =>
          cases eB with
          | some e' => simp [hB] at hnone
          | none =>
            simp only [hB] at hnone
            rw [retrieve_metadata_append] at hnone
            cases hC : retrieve_metadata stB l2 with
            | mk stC eC =>
              cases eC with
              | some e' => simp [hC] at hnone
              | none =>
                simp only [hC, retrieve_metadata] at hnone
                have hkB : (lookupA stB.by_name_and_parent
                    (m1.visibleName, m1.parent)).isSome := by
                  have := indexRecord_hit_after stA u1 m1 hv1 (by rw [hB])
                  rwa [hB] at this
                have hkC : (lookupA stC.by_name_and_parent
                    (m1.visibleName, m1.parent)).isSome := by
                  have := retrieve_metadata_bnp_mono stB l2 (m1.visibleName, m1.parent)
                    hkB (by rw [hC])
                  rwa [hC] at this
                have hhit : (indexRecord stC u2 m2).2.isSome := by
                  apply indexRecord_some_of_hit stC u2 m2 hv2
                  rw [← hn, ← hp]; exact hkC
                cases hD : indexRecord stC u2 m2 with
                | mk stD eD =>
                  cases eD with
                  | none => rw [hD] at hhit; simp at hhit
                  | some e' => simp [hD] at hnone
  · exact hsome

def mDupA : Metadata := ⟨"f.pdf", "", false, "DocumentType"⟩

/-- Witness for C1 at the spec's own scenario: records `x` and `y`, both
visible, both named `f.pdf` under the root parent. -/
theorem C1_duplicate_visible_records_raise_collision_witness :
    ∃ nm, (retrieve_metadata emptyIndex
      ([] ++ ("x", mDupA) :: ([] ++ ("y", mDupA) :: []))).2
      = some (PyErr.fileCollision nm) :=
  C1_duplicate_visible_records_raise_collision [] [] [] "x" "y" mDupA mDupA
    (by decide) (by decide) rfl rfl

theorem visibleRec_false_iff (m : Metadata) :
    visibleRec m = false ↔ (m.deleted || m.parent == "trash") = true := by
  cases hd : m.deleted <;> by_cases hp : m.parent = "trash" <;> simp [visibleRec, hd, hp]

theorem indexRecord_invisible (st : Index) (u : String) (m : Metadata)
    (h : (m.deleted || m.parent == "trash") = true) : indexRecord st u m = (st, none) := by
  unfold indexRecord
  rw [h]
  simp

/-- `metadata_by_name[n][u]`, the nested dict read. -/
def nameLookup (st : Index) (n u : String) : Option Metadata :=
  (lookupA st.by_name n).bind fun sub => lookupA sub u

/-- `metadata_by_parent[p][u]`, the nested dict read. -/
def parentLookup (st : Index) (p u : String) : Option Metadata :=
  (lookupA st.by_parent p).bind fun sub => lookupA sub u

theorem indexRecord_uuid_other (st : Index) (u' u : String) (m' : Metadata) (hne : u' ≠ u) :
    lookupA (indexRecord st u' m').1.by_uuid u = lookupA st.by_uuid u := by
  unfold indexRecord
  split
  · rfl
  · split
    · exact lookupA_updateA_ne _ _ _ _ hne
    · exact lookupA_updateA_ne _ _ _ _ hne

theorem nested_other (sub0 : List (String × Metadata)) (n' n u' u : String)
    (m' : Metadata) (byn : List (String × List (String × Metadata)))
    (hne : u' ≠ u) (hsub : sub0 = (lookupA byn n').getD []) :
    (lookupA (updateA byn n' (updateA sub0 u' m')) n).bind (fun sub => lookupA sub u)
      = (lookupA byn n).bind fun sub => lookupA sub u := by
  by_cases h : n' = n
  · subst h
    rw [lookupA_updateA_self]
    cases hn : lookupA byn n' with
    | none =>
      simp only [hn, Option.getD_none] at hsub
      subst hsub
      simp [lookupA_updateA_ne _ _ _ _ hne, lookupA, hne]
    | some s =>
      simp only [hn, Option.getD_some] at hsub
      subst hsub
      simp [lookupA_updateA_ne _ _ _ _ hne]
  · rw [lookupA_updateA_ne _ _ _ _ h]

theorem indexRecord_name_other (st : Index) (u' u n : String) (m' : Metadata) (hne : u' ≠ u) :
    nameLookup (indexRecord st u' m').1 n u = nameLookup st n u := by
  unfold indexRecord nameLookup
  split
  · rfl
  · split
    · exact nested_other _ _ _ _ _ _ _ hne rfl
    · exact nested_other _ _ _ _ _ _ _ hne rfl

theorem indexRecord_parent_other (st : Index) (u' u p : String) (m' : Metadata) (hne : u' ≠ u) :
    parentLookup (indexRecord st u' m').1 p u = parentLookup st p u := by
  unfold indexRecord parentLookup
  split
  · rfl
  · split
    · exact nested_other _ _ _ _ _ _ _ hne rfl
    · exact nested_other _ _ _ _ _ _ _ hne rfl

theorem nested_self (st : Index) (u : String) (m : Metadata) :
    (lookupA (updateA st.by_name m.visibleName
        (updateA ((lookupA st.by_name m.visibleName).getD []) u m)) m.visibleName).bind
      (fun sub => lookupA sub u) = some m := by
  rw [lookupA_updateA_self]
  simp [lookupA_updateA_self]

theorem nested_self_parent (st : Index) (u : String) (m : Metadata) :
    (lookupA (updateA st.by_parent m.parent
        (updateA ((lookupA st.by_parent m.parent).getD []) u m)) m.parent).bind
      (fun sub => lookupA sub u) = some m := by
  rw [lookupA_updateA_self]
  simp [lookupA_updateA_self]

/-- Facts about the state right after a visible record was indexed
successfully. -/
theorem indexRecord_self_facts (st : Index) (u : String) (m : Metadata)
    (hv : visibleRec m = true) (hok : (indexRecord st u m).2 = none) :
    lookupA (indexRecord st u m).1.by_uuid u = some m ∧
    nameLookup (indexRecord st u m).1 m.visibleName u = some m ∧
    parentLookup (indexRecord st u m).1 m.parent u = some m := by
  unfold indexRecord at hok ⊢
  rw [visibleRec_cond m hv] at hok ⊢
  by_cases h2 : (lookupA st.by_name_and_parent (m.visibleName, m.parent)).isSome
  · simp [h2] at hok
  · simp only [indexInsert_bnp, Bool.false_eq_true, if_false, if_neg h2]
    refine ⟨lookupA_updateA_self _ _ _, ?_, ?_⟩
    · exact nested_self st u m
    · exact nested_self_parent st u m

theorem retrieve_preserve_uuid (t : List (String × Metadata)) (st : Index) (u : String)
    (hok : (retrieve_metadata st t).2 = none) (hu : u ∉ t.map Prod.fst) :
    lookupA (retrieve_metadata st t).1.by_uuid u = lookupA st.by_uuid u := by
  induction t generalizing st with
  | nil => rfl
  | cons p t ih =>
    obtain ⟨u', m'⟩ := p
    simp only [List.map_cons, List.mem_cons, not_or] at hu
    simp only [retrieve_metadata] at hok ⊢
    cases h : indexRecord st u' m' with
    | mk st' e =>
      cases e with
      | some e' => simp [h] at hok
      | none =>
        simp only [h] at hok ⊢
        rw [ih st' hok hu.2]
        have := indexRecord_uuid_other st u' u m' (fun hh => absurd hh.symm hu.1)
        rw [h] at this
        exact this

theorem retrieve_preserve_name (t : List (String × Metadata)) (st : Index) (u n : String)
    (hok : (retrieve_metadata st t).2 = none) (hu : u ∉ t.map Prod.fst) :
    nameLookup (retrieve_metadata st t).1 n u = nameLookup st n u := by
  induction t generalizing st with
  | nil => rfl
  | cons p t ih =>
    obtain ⟨u', m'⟩ := p
    simp only [List.map_cons, List.mem_cons, not_or] at hu
    simp only [retrieve_metadata] at hok ⊢
    cases h : indexRecord st u' m' with
    | mk st' e =>
      cases e with
      | some e' => simp [h] at hok
      | none =>
        simp only [h] at hok ⊢
        rw [ih st' hok hu.2]
        have := indexRecord_name_other st u' u n m' (fun hh => absurd hh.symm hu.1)
        rw [h] at this
        exact this

theorem retrieve_preserve_parent (t : List (String × Metadata)) (st : Index) (u p : String)
    (hok : (retrieve_metadata st t).2 = none) (hu : u ∉ t.map Prod.fst) :
    parentLookup (retrieve_metadata st t).1 p u = parentLookup st p u := by
  induction t generalizing st with
  | nil => rfl
  | cons q t ih =>
    obtain ⟨u', m'⟩ := q
    simp only [List.map_cons, List.mem_cons, not_or] at hu
    simp only [retrieve_metadata] at hok ⊢
    cases h : indexRecord st u' m' with
    | mk st' e =>
      cases e with
      | some e' => simp [h] at hok
      | none =>
        simp only [h] at hok ⊢
        rw [ih st' hok hu.2]
        have := indexRecord_parent_other st u' u p m' (fun hh => absurd hh.symm hu.1)
        rw [h] at this
        exact this

/-- All records of `l` are already present in `st` exactly as the indexing
loop would store them. -/
def Saturated (st : Index) (l : List (String × Metadata)) : Prop :=
  ∀ q ∈ l, visibleRec q.2 = true →
    lookupA st.by_uuid q.1 = some q.2 ∧
    nameLookup st q.2.visibleName q.1 = some q.2 ∧
    parentLookup st q.2.parent q.1 = some q.2 ∧
    (lookupA st.by_name_and_parent (q.2.visibleName, q.2.parent)).isSome

/-- After a successful build over a snapshot with pairwise distinct record
identifiers, the final dict state is saturated with the snapshot. -/
theorem retrieve_metadata_saturates (l : List (String × Metadata)) (st : Index)
    (hok : (retrieve_metadata st l).2 = none) (hnodup : (l.map Prod.fst).Nodup) :
    Saturated (retrieve_metadata st l).1 l := by
  induction l generalizing st with
  | nil => intro q hq; simp at hq
  | cons p t ih =>
    obtain ⟨u, m⟩ := p
    simp only [List.map_cons, List.nodup_cons] at hnodup
    simp only [retrieve_metadata] at hok ⊢
    cases h : indexRecord st u m with
    | mk st' e =>
      cases e with
      | some e' => simp [h] at hok
      | none =>
        simp only [h] at hok ⊢
        intro q hq hv
        rcases List.mem_cons.mp hq with hq | hq
        · subst hq
          have hfacts := indexRecord_self_facts st u m hv (by rw [h])
          rw [h] at hfacts
          refine ⟨?_, ?_, ?_, ?_⟩
          · rw [retrieve_preserve_uuid t st' u hok hnodup.1]
            exact hfacts.1
          · rw [retrieve_preserve_name t st' u m.visibleName hok hnodup.1]
            exact hfacts.2.1
          · rw [retrieve_preserve_parent t st' u m.parent hok hnodup.1]
            exact hfacts.2.2
          · apply retrieve_metadata_bnp_mono st' t _ _ hok
            have := indexRecord_hit_after st u m hv (by rw [h])
            rw [h] at this
            exact this
        · exact ih st' hok hnodup.2 q hq hv

/-- Rebuilding from a saturated state leaves every dict untouched and
raises `FileCollision` at the first visible record. -/
theorem retrieve_metadata_saturated_run (l : List (String × Metadata)) (st : Index)
    (hsat : Saturated st l) :
    (retrieve_metadata st l).1 = st ∧
      ((retrieve_metadata st l).2 = none ↔ ∀ q ∈ l, visibleRec q.2 = false) := by
  induction l generalizing st with
  | nil => exact ⟨rfl, by simp [retrieve_metadata]⟩
  | cons p t ih =>
    obtain ⟨u, m⟩ := p
    by_cases hv : visibleRec m = true
    · -- the first visible record collides and stops the second build
      have hfacts := hsat (u, m) (List.mem_cons_self _ _) hv
      have hstep : indexRecord st u m = (st, some (PyErr.fileCollision m.visibleName)) := by
        unfold indexRecord
        rw [visibleRec_cond m hv]
        have hins : indexInsert st u m = st := by
          obtain ⟨h1, h2, h3, _⟩ := hfacts
          obtain ⟨sub2, hs2, hs2'⟩ : ∃ sub, lookupA st.by_name m.visibleName = some sub ∧
              lookupA sub u = some m := by
            unfold nameLookup at h2
            cases hx : lookupA st.by_name m.visibleName with
            | none => rw [hx] at h2; simp at h2
            | some s => rw [hx] at h2; exact ⟨s, rfl, by simpa using h2⟩
          obtain ⟨sub3, hs3, hs3'⟩ : ∃ sub, lookupA st.by_parent m.parent = some sub ∧
              lookupA sub u = some m := by
            unfold parentLookup at h3
            cases hx : lookupA st.by_parent m.parent with
            | none => rw [hx] at h3; simp at h3
            | some s => rw [hx] at h3; exact ⟨s, rfl, by simpa using h3⟩
          unfold indexInsert
          rw [updateA_eq_of_lookupA _ _ _ h1, hs2, hs3]
          simp only [Option.getD_some]
          rw [updateA_eq_of_lookupA _ _ _ hs2', updateA_eq_of_lookupA _ _ _ hs3']
          rw [updateA_eq_of_lookupA _ _ _ hs2, updateA_eq_of_lookupA _ _ _ hs3]
        rw [hins]
        simp [hfacts.2.2.2]
      simp only [retrieve_metadata, hstep]
      refine ⟨by simp, ?_⟩
      constructor
      · intro hh; simp at hh
      · intro hall
        exact absurd hv (by simp [hall (u, m) (List.mem_cons_self _ _)])
    · -- invisible record: skipped, recurse
      have hcond : (m.deleted || m.parent == "trash") = true :=
        (visibleRec_false_iff m).mp (by simpa using hv)
      have hstep := indexRecord_invisible st u m hcond
      simp only [retrieve_metadata, hstep]
      have hsub : Saturated st t := fun q hq => hsat q (List.mem_cons_of_mem _ hq)
      obtain ⟨ha, hb⟩ := ih st hsub
      refine ⟨ha, ?_⟩
      rw [hb]
      constructor
      · intro hall q hq
        rcases List.mem_cons.mp hq with hq | hq
        · subst hq; simpa using hv
        · exact hall q hq
      · intro hall q hq
        exact hall q (List.mem_cons_of_mem _ hq)

/-- C4 (amended): rebuilding the index from the same snapshot leaves every
`byId`, `byName`, `byParent` and `byNameAndParent` lookup unchanged (the
global dicts are not altered at all), but the second build does not succeed
whenever the snapshot has at least one visible record: `retrieve_metadata`
then raises `FileCollision`, because the never-cleared
`metadata_by_name_and_parent` dict already holds every visible key. -/
theorem C4_second_build_keeps_state_but_collides (l : List (String × Metadata))
    (hnodup : (l.map Prod.fst).Nodup)
    (h1 : (retrieve_metadata emptyIndex l).2 = none) :
    (retrieve_metadata (retrieve_metadata emptyIndex l).1 l).1
        = (retrieve_metadata emptyIndex l).1 ∧
      ((retrieve_metadata (retrieve_metadata emptyIndex l).1 l).2 = none ↔
        ∀ q ∈ l, visibleRec q.2 = false) := by
  have hsat := retrieve_metadata_saturates l emptyIndex h1 hnodup
  exact retrieve_metadata_saturated_run l _ hsat

def mRec4 : Metadata := ⟨"doc.pdf", "", false, "DocumentType"⟩

/-- Counterexample to C4 as stated: on a one-record snapshot the first
build succeeds but the second build fails with `FileCollision`, so the
second build does not succeed whenever the first does. -/
theorem C4_counterexample_second_build_fails :
    (retrieve_metadata emptyIndex [("u1", mRec4)]).2 = none ∧
      (retrieve_metadata (retrieve_metadata emptyIndex [("u1", mRec4)]).1
        [("u1", mRec4)]).2 = some (PyErr.fileCollision "doc.pdf") := by
  constructor <;> rfl

/-- Witness for the amended C4 on the same one-record snapshot. -/
theorem C4_second_build_keeps_state_but_collides_witness :
    (retrieve_metadata (retrieve_metadata emptyIndex [("u1", mRec4)]).1 [("u1", mRec4)]).1
        = (retrieve_metadata emptyIndex [("u1", mRec4)]).1 ∧
      ((retrieve_metadata (retrieve_metadata emptyIndex [("u1", mRec4)]).1
          [("u1", mRec4)]).2 = none ↔
        ∀ q ∈ [("u1", mRec4)], visibleRec q.2 = false) :=
  C4_second_build_keeps_state_but_collides [("u1", mRec4)] (by simp) (by rfl)

/-- The shape of the document tree seen by `curb_tree`: a node's name and
its ordered children.  The slash-joined `get_full_path` of the parent
chain is passed down the recursion (`pref = none` for a parentless
node). -/
inductive PTree where
  | node (name : String) (children : List PTree)
deriving Repr

/-- `Node.get_full_path` (src/resync.py:299-303), given the parent chain's
full path. -/
def fullPath (pref : Option String) (name : String) : String :=
  match pref with
  | none => name
  | some p => p ++ "/" ++ name

mutual
/-- `curb_tree` (src/resync.py:232-250).  An exclusion pattern is
abstracted to the Boolean predicate `path ↦ re.match(exc, path) is not
None` of the external `re` module.  Returning `none` models Python's
`return True` (the caller drops the whole node); otherwise the node is
returned with its child list replaced by the uncurbed children, as the
in-place mutation does. -/
def curb_tree (excl : List (String → Bool)) (pref : Option String) : PTree → Option PTree
  | .node name children =>
    if excl.any (fun exc => exc (fullPath pref name)) then none
    else some (.node name (curb_children excl (some (fullPath pref name)) children))

/-- The list comprehension
`[ch for ch in node.children if not curb_tree(ch, excludelist)]`. -/
def curb_children (excl : List (String → Bool)) (pref : Option String) : List PTree → List PTree
  | [] => []
  | t :: ts =>
    match curb_tree excl pref t with
    | none => curb_children excl pref ts
    | some t' => t' :: curb_children excl pref ts
end

/-- A path matches some configured exclusion pattern. -/
def matchesSome (excl : List (String → Bool)) (path : String) : Prop :=
  ∃ exc ∈ excl, exc path = true

instance (excl : List (String → Bool)) (path : String) : Decidable (matchesSome excl path) :=
  List.decidableBEx _ excl

mutual
/-- Modelled from the claim's words: pruning removes exactly the nodes
whose own full slash-joined path matches some pattern, together with all
of their descendants; a node whose own path matches no pattern is kept,
with its children pruned the same way. -/
def pruneSpec (excl : List (String → Bool)) (pref : Option String) : PTree → Option PTree
  | .node name children =>
    if matchesSome excl (fullPath pref name) then none
    else some (.node name (pruneSpecChildren excl (some (fullPath pref name)) children))

def pruneSpecChildren (excl : List (String → Bool)) (pref : Option String) :
    List PTree → List PTree
  | [] => []
  | t :: ts =>
    match pruneSpec excl pref t with
    | none => pruneSpecChildren excl pref ts
    | some t' => t' :: pruneSpecChildren excl pref ts
end

mutual
theorem curb_eq_spec_tree (excl : List (String → Bool)) (pref : Option String) :
    (t : PTree) → curb_tree excl pref t = pruneSpec excl pref t
  | .node name children => by
    rw [curb_tree, pruneSpec]
    by_cases h : matchesSome excl (fullPath pref name)
    · rw [if_pos h, if_pos ?_]
      simpa [matchesSome] using h
    · rw [if_neg ?hc, if_neg h]
      · rw [curb_eq_spec_children excl (some (fullPath pref name)) children]
      case hc => simpa [matchesSome] using h

theorem curb_eq_spec_children (excl : List (String → Bool)) (pref : Option String) :
    (ts : List PTree) → curb_children excl pref ts = pruneSpecChildren excl pref ts
  | [] => by rw [curb_children, pruneSpecChildren]
  | t :: ts => by
    rw [curb_children, pruneSpecChildren, curb_eq_spec_tree excl pref t,
      curb_eq_spec_children excl pref ts]
end

/-- C7: pruning behaves exactly as the claim describes — a node is removed
(together with its entire subtree) precisely when its own full slash-joined
path matches some exclusion pattern, and is otherwise kept, with only the
matching descendants removed from its child lists; in particular a node
whose own path matches no pattern is never removed by a sibling's match. -/
theorem C7_curb_tree_eq_pruneSpec (excl : List (String → Bool)) (pref : Option String)
    (t : PTree) : curb_tree excl pref t = pruneSpec excl pref t :=
  curb_eq_spec_tree excl pref t

/-- `str.split('/')`, keeping empty segments (`""` splits to `[""]`). -/
def splitSlashAux : List Char → List Char → List (List Char)
  | [], acc => [acc.reverse]
  | c :: t, acc =>
    if c = '/' then acc.reverse :: splitSlashAux t [] else splitSlashAux t (c :: acc)

def splitSlash (s : String) : List String :=
  (splitSlashAux s.toList []).map String.mk

/-- `pathlib.Path(s).name`: the final path component (paths are given
without trailing slashes, as the CLI arguments and names here are). -/
def pathName (s : String) : String :=
  String.mk ((s.toList.reverse.takeWhile (fun c => c ≠ '/')).reverse)

/-- Index of the last `'.'` in a list of characters (`str.rfind('.')`,
`none` for -1). -/
def lastDotIdx (cs : List Char) : Option Nat :=
  match cs.reverse.findIdx? (fun c => c = '.') with
  | none => none
  | some j => some (cs.length - 1 - j)

/-- `pathlib.Path(s).suffix`: `name[i:]` when the last dot sits strictly
inside the name, else the empty string. -/
def pathSuffix (s : String) : String :=
  let cs := (pathName s).toList
  match lastDotIdx cs with
  | some i => if 0 < i ∧ i < cs.length - 1 then String.mk (cs.drop i) else ""
  | none => ""

/-- `pathlib.Path(s).stem`: `name[:i]` when the last dot sits strictly
inside the name, else the whole name. -/
def pathStem (s : String) : String :=
  let cs := (pathName s).toList
  match lastDotIdx cs with
  | some i => if 0 < i ∧ i < cs.length - 1 then String.mk (cs.take i) else String.mk cs
  | none => String.mk cs

/-- `str.lower()` on the character list (`String.toLower` itself is not
kernel-reducible). -/
def strLower (s : String) : String :=
  String.mk (s.toList.map Char.toLower)

/-- The `--if-exists` policy; argparse admits exactly these four values. -/
inductive IfExists where
  | duplicate
  | overwrite
  | skip
  | doconly
deriving DecidableEq, Repr

/-- Document vs folder, with a Document's `filetype` (`doc.suffix[1:]`)
and source path (`self.doc`). -/
inductive NKind where
  | document (filetype : String) (src : String)
  | folder
deriving DecidableEq, Repr

/-- An in-memory tree `Node` of `resync.py` after construction:
`node_exists` is the `exists` attribute, `render_overridden` records that
the `doconly` branch replaced the node's `render` attribute by the
two-parameter lambda (src/resync.py:530). -/
inductive PNode where
  | mk (name : String) (kind : NKind) (id : Option String) (node_exists : Bool)
      (gets_modified : Bool) (render_overridden : Bool) (children : List PNode)
deriving Repr

def PNode.name : PNode → String
  | .mk n _ _ _ _ _ _ => n

def PNode.kind : PNode → NKind
  | .mk _ k _ _ _ _ _ => k

def PNode.id : PNode → Option String
  | .mk _ _ i _ _ _ _ => i

def PNode.node_exists : PNode → Bool
  | .mk _ _ _ e _ _ _ => e

def PNode.gets_modified : PNode → Bool
  | .mk _ _ _ _ g _ _ => g

def PNode.render_overridden : PNode → Bool
  | .mk _ _ _ _ _ o _ => o

def PNode.children : PNode → List PNode
  | .mk _ _ _ _ _ _ c => c

/-- The spec's per-node disposition vocabulary (§4.3). -/
inductive Disposition where
  | New
  | Reused
  | Modified
deriving DecidableEq, Repr

/-- Disposition in terms of the code's flags: an untouched existing match
is Reused; a node flagged `gets_modified` is Modified; everything else is
a fresh upload. -/
def disposition (n : PNode) : Disposition :=
  if n.node_exists then .Reused else if n.gets_modified then .Modified else .New

/-- `Node.__init__` (src/resync.py:262-282): the `(name, parent)` index
lookup seeding `id`/`exists`.  `parentKey = none` models `parent is None`
(lookup under the root sentinel `""`); `some none` a parent object whose
own `id` is `None` (the `(name, None)` key never matches); `some (some i)`
a parent with a resolved id. -/
def nodeLookup (index : Index) (parentKey : Option (Option String)) (name : String) :
    Option (String × Metadata) :=
  match parentKey with
  | none => lookupA index.by_name_and_parent (name, "")
  | some none => none
  | some (some pid) => lookupA index.by_name_and_parent (name, pid)

/-- A local filesystem entry handed to `construct_node_tree_from_disk`:
a directory with its `os.listdir` entries in enumeration order, or a file
with its path string. -/
inductive FSEntry where
  | dir (name : String) (entries : List FSEntry)
  | file (path : String)
deriving Repr

mutual
/-- `construct_node_tree_from_disk` (src/resync.py:497-543) together with
the `Node`/`Document`/`Folder` constructors it invokes.  `gen` is the
stream of `gen_did()` results and `k` counts the ids drawn so far.
Unsupported file types yield `none` (printed and skipped).  A folder's
children are constructed after the folder itself, so they look up their
`(name, parent)` key under the folder's already-resolved id (or under
`None` when the folder is new). -/
def construct_node_tree_from_disk (gen : Nat → String) (index : Index) (ie : IfExists) :
    FSEntry → Option (Option String) → Nat → Option PNode × Nat
  | .dir name entries, parentKey, k =>
    let fid := nodeLookup index parentKey name
    let nodeId : Option String := fid.map Prod.fst
    let (ch, k') := construct_children gen index ie entries (some nodeId) k
    (some (.mk name .folder nodeId fid.isSome false false ch), k')
  | .file p, parentKey, k =>
    if strLower (pathSuffix p) = ".pdf" ∨ strLower (pathSuffix p) = ".epub" then
      let name := pathName p
      let ft := (pathSuffix p).drop 1
      match nodeLookup index parentKey name with
      | some (u, _) =>
        match ie with
        | .skip => (some (.mk name (.document ft p) (some u) true false false []), k)
        | .overwrite => (some (.mk name (.document ft p) (some u) false true false []), k)
        | .doconly => (some (.mk name (.document ft p) (some u) false true true []), k)
        | .duplicate => (some (.mk name (.document ft p) (some (gen k)) false false false []), k + 1)
      | none => (some (.mk name (.document ft p) none false false false []), k)
    else
      (none, k)

/-- The recursion over `os.listdir`, keeping only children whose
construction returned a node. -/
def construct_children (gen : Nat → String) (index : Index) (ie : IfExists) :
    List FSEntry → Option (Option String) → Nat → List PNode × Nat
  | [], _, k => ([], k)
  | e :: es, pk, k =>
    match construct_node_tree_from_disk gen index ie e pk k with
    | (some n, k') =>
      let (ns, k'') := construct_children gen index ie es pk k'
      (n :: ns, k'')
    | (none, k') => construct_children gen index ie es pk k'
end

/-- The metadata JSON blob written by `construct_metadata`
(src/resync.py:111-136); `now` is `int(time.time()*1000)`. -/
structure MetaBlob where
  visibleName : String
  parent : String
  lastModified : String
  metadatamodified : Bool
  modified : Bool
  pinned : Bool
  synced : Bool
  type : String
  version : Nat
  deleted : Bool
  lastOpened : Option String
  lastOpenedPage : Option Nat
deriving DecidableEq, Repr

def construct_metadata (now : Nat) (filetype name parent_id : String) : MetaBlob :=
  if filetype = "pdf" ∨ filetype = "epub" then
    { visibleName := name, parent := parent_id, lastModified := toString now
      metadatamodified := false, modified := false, pinned := false, synced := false
      type := "DocumentType", version := 0, deleted := false
      lastOpened := some (toString now), lastOpenedPage := some 0 }
  else
    { visibleName := name, parent := parent_id, lastModified := toString now
      metadatamodified := false, modified := false, pinned := false, synced := false
      type := "CollectionType", version := 0, deleted := false
      lastOpened := none, lastOpenedPage := none }

/-- One filesystem write performed inside the staging directory during a
render. -/
inductive Artifact where
  | metadataFile (id : String) (blob : MetaBlob)
  | contentFile (id : String)
  | docDir (id : String)
  | thumbnailsDir (id : String)
  | payloadCopy (src : String) (id : String) (filetype : String)
deriving DecidableEq, Repr

mutual
/-- `Document.render` / `Folder.render` / `render_common`
(src/resync.py:306-324, 361-371, 420-428).  `pid = none` models a node
without a parent (metadata `parent` defaults to `""`).  A node whose
`render` attribute was replaced by the `doconly` lambda raises `TypeError`
when rendered: `lambda self, prepdir: ...` is stored as an instance
attribute and is therefore not bound, so the call `render(prepdir)`
supplies only one of its two positional parameters.  Construction
guarantees `node_exists → id.isSome`, so the `id.getD ""` below never
falls back in a reachable state. -/
def render_node (gen : Nat → String) (now : Nat) (pid : Option String) :
    PNode → Nat → Except PyErr (List Artifact × Nat)
  | .mk name kind nid ex _gm ov children, k =>
    if ov then .error .typeError
    else
      match kind with
      | .document ft src =>
        if ex then .ok ([], k)
        else
          match nid with
          | some i =>
            .ok ([.metadataFile i (construct_metadata now ft name (pid.getD "")),
              .contentFile i, .docDir i, .thumbnailsDir i, .payloadCopy src i ft], k)
          | none =>
            .ok ([.metadataFile (gen k) (construct_metadata now ft name (pid.getD "")),
              .contentFile (gen k), .docDir (gen k), .thumbnailsDir (gen k),
              .payloadCopy src (gen k) ft], k + 1)
      | .folder =>
        if ex then render_children gen now (some (nid.getD "")) children k
        else
          match nid with
          | some i =>
            match render_children gen now (some i) children k with
            | .ok (chArts, k'') =>
              .ok ([.metadataFile i (construct_metadata now "folder" name (pid.getD "")),
                .contentFile i] ++ chArts, k'')
            | .error e => .error e
          | none =>
            match render_children gen now (some (gen k)) children (k + 1) with
            | .ok (chArts, k'') =>
              .ok ([.metadataFile (gen k) (construct_metadata now "folder" name (pid.getD "")),
                .contentFile (gen k)] ++ chArts, k'')
            | .error e => .error e

/-- `for ch in self.children: ch.render(prepdir)` with exception
propagation. -/
def render_children (gen : Nat → String) (now : Nat) (pid : Option String) :
    List PNode → Nat → Except PyErr (List Artifact × Nat)
  | [], k => .ok ([], k)
  | c :: cs, k =>
    match render_node gen now pid c k with
    | .error e => .error e
    | .ok (a1, k1) =>
      match render_children gen now pid cs k1 with
      | .error e => .error e
      | .ok (a2, k2) => .ok (a1 ++ a2, k2)
end

/-- C6: a node whose disposition is Reused (its `exists` flag survived
construction, which also implies its render was never overridden) produces
no staging artifact of its own — a Document renders nothing at all, a
Folder only forwards to its children. -/
theorem C6_reused_node_renders_nothing (gen : Nat → String) (now : Nat)
    (pid : Option String) (n : PNode) (k : Nat)
    (h1 : disposition n = .Reused) (h2 : n.render_overridden = false) :
    render_node gen now pid n k =
      (match n.kind with
       | .document _ _ => .ok ([], k)
       | .folder => render_children gen now (some (n.id.getD "")) n.children k) := by
  obtain ⟨name, kind, nid, ex, gm, ov, children⟩ := n
  simp only [PNode.render_overridden] at h2
  subst h2
  simp only [disposition, PNode.node_exists, PNode.gets_modified] at h1
  by_cases hex : ex
  · subst hex
    cases kind with
    | document ft src => simp [render_node, PNode.kind]
    | folder => simp [render_node, PNode.kind, PNode.id, PNode.children]
  · exfalso
    simp only [Bool.not_eq_true] at hex
    rw [hex] at h1
    by_cases hgm : gm = true <;> simp [hgm] at h1

def genW : Nat → String := fun i => "f" ++ toString i

def nodeReusedW : PNode := .mk "a.pdf" (.document "pdf" "a.pdf") (some "u1") true false false []

/-- Witness for C6: a matched Document under policy `skip` renders no
artifact. -/
theorem C6_reused_node_renders_nothing_witness :
    render_node genW 0 none nodeReusedW 0 = .ok ([], 0) :=
  C6_reused_node_renders_nothing genW 0 none nodeReusedW 0 (by decide) (by decide)

/-- C5: under policy `duplicate`, a pushed Document whose `(name, parent)`
key matches an existing visible record is constructed as a brand-new node:
it draws the next generated identifier (distinct from the matched record's
id, as identifiers are fresh), its `exists` flag is cleared and it is not
marked modified, i.e. its disposition is New. -/
theorem C5_duplicate_assigns_fresh_id (gen : Nat → String) (index : Index)
    (ie : IfExists) (p : String) (parentKey : Option (Option String)) (k : Nat)
    (u : String) (md : Metadata)
    (hie : ie = .duplicate)
    (hsuf : strLower (pathSuffix p) = ".pdf" ∨ strLower (pathSuffix p) = ".epub")
    (hmatch : nodeLookup index parentKey (pathName p) = some (u, md))
    (hfresh : gen k ≠ u) :
    construct_node_tree_from_disk gen index ie (.file p) parentKey k =
      (some (.mk (pathName p) (.document ((pathSuffix p).drop 1) p) (some (gen k))
        false false false []), k + 1) ∧
      (construct_node_tree_from_disk gen index ie (.file p) parentKey k).1.bind PNode.id
        ≠ some u ∧
      (construct_node_tree_from_disk gen index ie (.file p) parentKey k).1.map disposition
        = some .New := by
  subst hie
  have h0 : construct_node_tree_from_disk gen index .duplicate (.file p) parentKey k =
      (some (.mk (pathName p) (.document ((pathSuffix p).drop 1) p) (some (gen k))
        false false false []), k + 1) := by
    simp only [construct_node_tree_from_disk, if_pos hsuf, hmatch]
  refine ⟨h0, ?_, ?_⟩
  · rw [h0]
    simp [PNode.id, hfresh]
  · rw [h0]
    simp [disposition, PNode.node_exists, PNode.gets_modified]

def mRec5 : Metadata := ⟨"a.pdf", "", false, "DocumentType"⟩

def idx5 : Index := (retrieve_metadata emptyIndex [("u1", mRec5)]).1

/-- Witness for C5: the snapshot holds a visible `a.pdf` under the root;
pushing `a.pdf` with `--if-exists duplicate` creates a sibling with the
fresh id `f0 ≠ u1` and disposition New. -/
theorem C5_duplicate_assigns_fresh_id_witness :
    construct_node_tree_from_disk genW idx5 .duplicate (.file "a.pdf") none 0 =
      (some (.mk (pathName "a.pdf") (.document ((pathSuffix "a.pdf").drop 1) "a.pdf")
        (some (genW 0)) false false false []), 0 + 1) ∧
      (construct_node_tree_from_disk genW idx5 .duplicate (.file "a.pdf") none 0).1.bind
        PNode.id ≠ some "u1" ∧
      (construct_node_tree_from_disk genW idx5 .duplicate (.file "a.pdf") none 0).1.map
        disposition = some .New :=
  C5_duplicate_assigns_fresh_id genW idx5 .duplicate "a.pdf" none 0 "u1" mRec5
    rfl (by decide) (by decide) (by decide)

def mRec3 : Metadata := ⟨"a.pdf", "", false, "DocumentType"⟩

def idx3 : Index := (retrieve_metadata emptyIndex [("u1", mRec3)]).1

/-- C3 evaluated at its failing input: pushing `a.pdf` under policy
`doconly` onto a snapshot that holds a visible `a.pdf` at the root builds
a node whose `render` attribute is the unbound two-parameter lambda, and
rendering it raises `TypeError` instead of copying only the payload — no
artifact, payload copy included, is staged. -/
theorem C3_doconly_render_raises_typeerror :
    ((construct_node_tree_from_disk genW idx3 .doconly (.file "a.pdf") none 0).1.map
      (fun n => render_node genW 0 none n 0)) = some (.error .typeError) := by
  rfl

/-- One step of the synthetic parent chain of a pull path
(src/resync.py:672-676): each further `Folder(par, parent=local_anchor)`
extends the slash path and resolves its own id through the index under the
previous folder's id. -/
def chainStep (index : Index) (acc : String × Option String) (par : String) :
    String × Option String :=
  (acc.1 ++ "/" ++ par, (nodeLookup index (some acc.2) par).map Prod.fst)

/-- The chain for the whole `parents` prefix of a pull path: full slash
path of the last synthetic folder and its id (`none` when `parents` is
empty, i.e. `local_anchor is None`). -/
def chainInfo (index : Index) : List String → Option (String × Option String)
  | [] => none
  | p0 :: rest =>
    some (rest.foldl (chainStep index) (p0, (nodeLookup index none p0).map Prod.fst))

/-- A resolved pull anchor: the target node and the slash path of its
synthetic parents. -/
structure Anchor where
  pathPref : Option String
  node : PNode
deriving Repr

/-- One iteration of the anchor loop in `pull_from_remarkable`
(src/resync.py:668-686).  When the final segment has remote matches,
`metadata = get_metadata_by_name(target)` is the uuid-keyed dict
`metadata_by_name[target]`, so `metadata['type']` raises
`KeyError: 'type'` unless some record's uuid is literally `"type"`; and
if one is, its value is a dict, which compares unequal to the string
`'DocumentType'`, so the Folder branch is taken. -/
def pull_one (index : Index) (doc : String) : Except PyErr (Option Anchor) :=
  let parts := splitSlash doc
  let parents := parts.dropLast
  let target := parts.getLastD ""
  let ci := chainInfo index parents
  match lookupA index.by_name target with
  | none => .ok none
  | some sub =>
    match lookupA sub "type" with
    | none => .error (.keyError "type")
    | some _ =>
      let fid := nodeLookup index (ci.map Prod.snd) target
      .ok (some ⟨ci.map Prod.fst, .mk target .folder (fid.map Prod.fst) fid.isSome false false []⟩)

/-- The anchor-resolution loop of `pull_from_remarkable`: collected
anchors, printed messages, and the first uncaught exception (which aborts
the loop). -/
def pull_resolve (index : Index) : List String → List Anchor × List String × Option PyErr
  | [] => ([], [], none)
  | doc :: rest =>
    match pull_one index doc with
    | .error e => ([], [], some e)
    | .ok none =>
      let r := pull_resolve index rest
      (r.1, ("Cannot find " ++ doc ++ ", skipping") :: r.2.1, r.2.2)
    | .ok (some a) =>
      let r := pull_resolve index rest
      (a :: r.1, r.2.1, r.2.2)

/-- C9: a pull path whose final segment matches no visible record only
prints the not-found message; it contributes no anchor (hence no
download), and the remaining requested paths are processed exactly as if
the missing path had not been requested. -/
theorem C9_notfound_pull_path_logs_and_continues (index : Index) (doc : String)
    (rest : List String)
    (h : lookupA index.by_name ((splitSlash doc).getLastD "") = none) :
    pull_resolve index (doc :: rest) =
      ((pull_resolve index rest).1,
        ("Cannot find " ++ doc ++ ", skipping") :: (pull_resolve index rest).2.1,
        (pull_resolve index rest).2.2) := by
  have h1 : pull_one index doc = .ok none := by
    simp only [pull_one, h]
  simp only [pull_resolve, h1]

/-- Witness for C9 at the spec's scenario: pulling `Folder1/Doc.pdf`
against an empty remote logs the message and nothing else. -/
theorem C9_notfound_pull_path_logs_and_continues_witness :
    pull_resolve emptyIndex ["Folder1/Doc.pdf"] =
      ([], ["Cannot find Folder1/Doc.pdf, skipping"], none) :=
  C9_notfound_pull_path_logs_and_continues emptyIndex "Folder1/Doc.pdf" [] (by rfl)

/-- Existing local paths, each a list of components. -/
abbrev FS := List (List String)

/-- `self.name.lower().endswith('.pdf')`. -/
def lowerEndsWithPdf (name : String) : Bool :=
  (strLower name).toList.reverse.take 4 = ['f', 'd', 'p', '.']

/-- The local filename `Document.download` computes
(src/resync.py:395). -/
def localFilename (name : String) : String :=
  if lowerEndsWithPdf name then name else name ++ ".pdf"

/-- `Document.download` (src/resync.py:383-409) in non-dry-run form:
`os.chdir(targetdir)` then the `os.path.exists(filename)` check.  `remote`
models the web interface (`none` = `URLError`, which prints and calls
`sys.exit(2)`); a fetch is recorded by the placeholder id used in the URL
(`str(None)` when the node has no id).  There is no `else` branch for a
missing local file, and a policy other than `skip`/`overwrite` hits
`raise Exception("huh?")`. -/
def doc_download (dryrun : Bool) (ie : IfExists) (remote : String → Option String)
    (name : String) (docId : Option String) (targetdir : List String) (fs : FS) :
    FS × List String × Option PyErr :=
  if dryrun then (fs, [], none)
  else if (targetdir ++ [localFilename name]) ∈ fs then
    match ie with
    | .skip => (fs, [], none)
    | .overwrite =>
      match remote (docId.getD "None") with
      | some _ => (fs, [docId.getD "None"], none)
      | none => (fs, [], some (.exitCode 2))
    | _ => (fs, [], some .exceptionHuh)
  else (fs, [], none)

/-- C10: in non-dry-run mode, when no file with the computed local name
exists in the target directory, `Document.download` performs no remote
fetch and creates no local file; and any attempted fetch implies the file
existed and the policy was `overwrite`. -/
theorem C10_download_fetches_only_existing_overwrite (ie : IfExists)
    (remote : String → Option String) (name : String) (docId : Option String)
    (targetdir : List String) (fs : FS) :
    ((targetdir ++ [localFilename name]) ∉ fs →
      doc_download false ie remote name docId targetdir fs = (fs, [], none)) ∧
    ((doc_download false ie remote name docId targetdir fs).2.1 ≠ [] →
      (targetdir ++ [localFilename name]) ∈ fs ∧ ie = .overwrite) := by
  constructor
  · intro hmem
    simp only [doc_download, Bool.false_eq_true, if_false, if_neg hmem]
  · intro hfetch
    by_cases hmem : (targetdir ++ [localFilename name]) ∈ fs
    · refine ⟨hmem, ?_⟩
      simp only [doc_download, Bool.false_eq_true, if_false, if_pos hmem] at hfetch
      cases ie with
      | overwrite => rfl
      | skip => simp at hfetch
      | duplicate => simp at hfetch
      | doconly => simp at hfetch
    · exfalso
      simp [doc_download, if_neg hmem] at hfetch

/-- Witness for C10: an empty target directory triggers no fetch and no
write even under `overwrite`. -/
theorem C10_download_fetches_only_existing_overwrite_witness :
    doc_download false .overwrite (fun _ => some "bytes") "a.pdf" (some "u1") ["dest"] []
      = ([], [], none) :=
  (C10_download_fetches_only_existing_overwrite .overwrite (fun _ => some "bytes")
    "a.pdf" (some "u1") ["dest"] []).1 (by simp)

/-- The next run's snapshot after the staged files are copied into
`.local/share/remarkable/xochitl/`: each staged `<id>.metadata` blob shows
up as a record keyed by its path stem; `ls` returns them in the sorted
order the generated `f0 < f1 < ...` ids already have. -/
def snapshotOfArtifacts : List Artifact → List (String × Metadata)
  | [] => []
  | .metadataFile i b :: t => (i, ⟨b.visibleName, b.parent, b.deleted, b.type⟩) :: snapshotOfArtifacts t
  | _ :: t => snapshotOfArtifacts t

/-- Push of the local folder `F` containing `a.pdf` against an empty
remote, policy `skip`. -/
def pushC2 : Option (Except PyErr (List Artifact × Nat)) :=
  (construct_node_tree_from_disk genW emptyIndex .skip
    (.dir "F" [.file "a.pdf"]) none 0).1.map (fun n => render_node genW 0 none n 0)

/-- The artifacts that push stages. -/
def artsC2 : List Artifact :=
  match pushC2 with
  | some (.ok (arts, _)) => arts
  | _ => []

/-- C2 evaluated at its failing input: pushing folder `F` with `a.pdf`
succeeds (two metadata blobs staged), but pulling `F` back aborts with
`KeyError: 'type'` while resolving the anchor — `get_metadata_by_name`
returns a uuid-keyed dict and `metadata['type']` indexes it with the
string `'type'` — so the pull produces no anchor, downloads nothing and
reproduces no child names. -/
theorem C2_roundtrip_pull_raises_keyerror :
    pushC2 = some (.ok (artsC2, 2)) ∧
      pull_resolve (retrieve_metadata emptyIndex (snapshotOfArtifacts artsC2)).1 ["F"]
        = ([], [], some (.keyError "type")) :=
  ⟨rfl, rfl⟩

/-- A parsed JSON value, restricted to the flat shape of metadata blobs:
scalars, strings without escape sequences, and one level of objects with
string keys and scalar values.  This models the external `json` module on
the inputs the metadata pipeline sees. -/
inductive JVal where
  | jnull
  | jbool (b : Bool)
  | jnum (n : Int)
  | jstr (s : List Char)
  | jobj (kvs : List (List Char × JVal))

mutual
/-- Python `==` on parsed JSON values. -/
def JVal.beq : JVal → JVal → Bool
  | .jnull, .jnull => true
  | .jbool a, .jbool b => a == b
  | .jnum a, .jnum b => a == b
  | .jstr a, .jstr b => a == b
  | .jobj a, .jobj b => JVal.beqList a b
  | _, _ => false

def JVal.beqList : List (List Char × JVal) → List (List Char × JVal) → Bool
  | [], [] => true
  | (k1, v1) :: t1, (k2, v2) :: t2 => k1 == k2 && JVal.beq v1 v2 && JVal.beqList t1 t2
  | _, _ => false
end

instance : BEq JVal := ⟨JVal.beq⟩

def isJsonWs (c : Char) : Bool :=
  c = ' ' || c = '\t' || c = '\n' || c = '\r'

def skipWs : List Char → List Char
  | [] => []
  | c :: rest => if isJsonWs c then skipWs rest else c :: rest

/-- Scan a string body after the opening quote: content and remainder
after the closing quote; `none` models an unterminated string. -/
def parseStringBody : List Char → Option (List Char × List Char)
  | [] => none
  | c :: rest =>
    if c = '"' then some ([], rest)
    else
      match parseStringBody rest with
      | some (s, r) => some (c :: s, r)
      | none => none

def parseDigits : List Char → Nat → Nat × List Char
  | c :: rest, acc =>
    if c.isDigit then parseDigits rest (acc * 10 + (c.toNat - 48)) else (acc, c :: rest)
  | [], acc => (acc, [])

/-- `s[idx:idx+n] == kw` and the remainder past the keyword, as the
scanner's keyword comparison does. -/
def stripLit : List Char → List Char → Option (List Char)
  | [], r => some r
  | _ :: _, [] => none
  | c :: cs, d :: r => if c = d then stripLit cs r else none

/-- Scan a scalar JSON value at the head of the list.  Errors carry the
remainder at the failure position, matching the character positions
`json.JSONDecodeError` reports for these inputs. -/
def parseScalar (l : List Char) : Except (List Char) (JVal × List Char) :=
  match stripLit "null".toList l with
  | some r => .ok (.jnull, r)
  | none =>
  match stripLit "true".toList l with
  | some r => .ok (.jbool true, r)
  | none =>
  match stripLit "false".toList l with
  | some r => .ok (.jbool false, r)
  | none =>
  match l with
  | '"' :: r =>
    match parseStringBody r with
    | some (s, r') => .ok (.jstr s, r')
    | none => .error ('"' :: r)
  | '-' :: c :: r =>
    if c.isDigit then
      let d := parseDigits (c :: r) 0
      .ok (.jnum (-(d.1 : Int)), d.2)
    else .error ('-' :: c :: r)
  | c :: r =>
    if c.isDigit then
      let d := parseDigits (c :: r) 0
      .ok (.jnum (d.1 : Int), d.2)
    else .error (c :: r)
  | [] => .error []

/-- The object-member loop: `"key": scalar` pairs separated by commas.
`fuel` is a structural termination device; every iteration consumes at
least five characters, so the caller's `length + 1` budget never runs
out. -/
def parseMembersLoop : Nat → List Char → Except (List Char) (List (List Char × JVal) × List Char)
  | 0, l => .error l
  | fuel + 1, l =>
    match l with
    | '"' :: keyRest =>
      match parseStringBody keyRest with
      | none => .error ('"' :: keyRest)
      | some (key, afterKey) =>
        match skipWs afterKey with
        | ':' :: afterColon =>
          match parseScalar (skipWs afterColon) with
          | .error bad => .error bad
          | .ok (v, afterVal) =>
            match skipWs afterVal with
            | ',' :: afterComma =>
              match parseMembersLoop fuel (skipWs afterComma) with
              | .ok (kvs, tl) => .ok ((key, v) :: kvs, tl)
              | .error bad => .error bad
            | '}' :: afterBrace => .ok ([(key, v)], afterBrace)
            | bad => .error bad
        | bad => .error bad
    | bad => .error bad

/-- Object body after the opening brace. -/
def parseObjBody (fuel : Nat) (r : List Char) :
    Except (List Char) (List (List Char × JVal) × List Char) :=
  match skipWs r with
  | '}' :: r' => .ok ([], r')
  | l' => parseMembersLoop fuel l'

/-- Scan one JSON value. -/
def parseVal (l : List Char) : Except (List Char) (JVal × List Char) :=
  match l with
  | '{' :: r =>
    match parseObjBody (r.length + 1) r with
    | .ok (kvs, r') => .ok (.jobj kvs, r')
    | .error e => .error e
  | _ => parseScalar l

/-- `json.loads` on the remaining stream text: skip whitespace, scan one
value, skip trailing whitespace; left-over text raises `Extra data` whose
position is the index after the value (and any whitespace), a scan
failure raises at its failure index. -/
def json_loads_r (s : List Char) : Except Nat JVal :=
  match parseVal (skipWs s) with
  | .error r => .error (s.length - r.length)
  | .ok (v, r) =>
    match skipWs r with
    | [] => .ok v
    | r' => .error (s.length - r'.length)

/-- `stream_read_json` (src/resync.py:140-154) on the suffix of the
stream starting at `start_pos`: try to parse the whole rest (success
yields the value and ends the generator); on a decode error at relative
position `p`, re-read the first `p` characters, stop silently if that
slice is empty, parse it with a bare `json.loads` whose own failure
escapes the generator, otherwise yield and continue after the slice.
Returns the yielded values and whether an exception escaped.  `fuel` is a
structural termination device; each iteration advances by `p ≥ 1`, so the
caller's `length + 1` budget never runs out. -/
def stream_read_aux : Nat → List Char → List JVal × Bool
  | 0, _ => ([], true)
  | fuel + 1, l =>
    match json_loads_r l with
    | .ok v => ([v], false)
    | .error p =>
      if p = 0 then ([], false)
      else
        match json_loads_r (l.take p) with
        | .ok v =>
          let r := stream_read_aux fuel (l.drop p)
          (v :: r.1, r.2)
        | .error _ => ([], true)

def stream_read (l : List Char) : List JVal × Bool :=
  stream_read_aux (l.length + 1) l

def jtruthy : JVal → Bool
  | .jnull => false
  | .jbool b => b
  | .jnum n => n != 0
  | .jstr s => !s.isEmpty
  | .jobj kvs => !kvs.isEmpty

/-- Bridge one parsed metadata object to the `Metadata` record read by the
indexing loop, with Python's evaluation order: `metadata['deleted']` is
read first (KeyError when absent), `metadata['parent']` only when
`deleted` is falsy, `metadata['visibleName']` only for visible records.
Records whose name or parent is not a JSON string fall outside the
modelled index (string-keyed dicts) and are mapped to the `typeError`
sentinel; no claim exercises them.  The stored `type` string defaults to
`""` when absent, which no embedded fragment can observe. -/
def recordOfJObj (kvs : List (List Char × JVal)) : Except PyErr (Option Metadata) :=
  match lookupA kvs "deleted".toList with
  | none => .error (.keyError "deleted")
  | some d =>
    if jtruthy d then .ok none
    else
      match lookupA kvs "parent".toList with
      | none => .error (.keyError "parent")
      | some pj =>
        if pj == .jstr "trash".toList then .ok none
        else
          match lookupA kvs "visibleName".toList with
          | none => .error (.keyError "visibleName")
          | some nj =>
            match nj, pj with
            | .jstr nm, .jstr pr =>
              .ok (some ⟨String.mk nm, String.mk pr, false,
                (match lookupA kvs "type".toList with
                 | some (.jstr t) => String.mk t
                 | _ => "")⟩)
            | _, _ => .error .typeError

/-- A non-object value hit by `metadata['deleted']` raises `TypeError`. -/
def recordOfJVal : JVal → Except PyErr (Option Metadata)
  | .jobj kvs => recordOfJObj kvs
  | _ => .error .typeError

/-- The indexing loop over `(uuid, parsed json)` pairs, with exceptions
sticky as in Python.  (A `KeyError` raised mid-record would in Python
leave that record's earlier inserts behind; no claim exercises that
corner, so the conversion here runs before the inserts.) -/
def index_jvals (st : Index) : List (String × JVal) → Index × Option PyErr
  | [] => (st, none)
  | (u, j) :: rest =>
    match recordOfJVal j with
    | .error e => (st, some e)
    | .ok none => index_jvals st rest
    | .ok (some m) =>
      match indexRecord st u m with
      | (st', none) => index_jvals st' rest
      | (st', some e) => (st', some e)

/-- The whole of `retrieve_metadata` including the fetch: zip the
`*.metadata` paths with the values the stream generator yields (uuid =
path stem), index them, and let the generator's escaped exception surface
exactly when `zip` pulls the generator again, i.e. when paths are left
over. -/
def fetch_and_index (paths : List String) (stream : List Char) : Index × Option PyErr :=
  let so := stream_read stream
  let pairs := (paths.zip so.1).map fun pr => (pathStem pr.1, pr.2)
  match index_jvals emptyIndex pairs with
  | (st, some e) => (st, some e)
  | (st, none) =>
    if so.2 ∧ so.1.length < paths.length then (st, some .jsonDecodeError)
    else (st, none)

/-- `{"visibleName":"a","parent":"","deleted":false}`. -/
def rec1C : List Char :=
  '{' :: ("\"visibleName\":\"a\",\"parent\":\"\",\"deleted\":false".toList ++ ['}'])

/-- `{"visibleName":"b","parent":"","deleted":false}`. -/
def rec3C : List Char :=
  '{' :: ("\"visibleName\":\"b\",\"parent\":\"\",\"deleted\":false".toList ++ ['}'])

/-- A three-file fetch whose second `.metadata` file is malformed
(a single `#`). -/
def streamC8 : List Char := rec1C ++ '#' :: rec3C

def pathsC8 : List String := ["u1.metadata", "u2.metadata", "u3.metadata"]

/-- Counterexample to C8 as stated: with records u1 (well-formed), u2
(malformed `#`), u3 (well-formed) in the stream, the fetch indeed does not
fail, and u1 is indexed — but indexing does **not** continue with the
remaining records: the well-formed u3 is dropped, because the generator
stops at the first position where `json.load` fails at relative position
0 and returns an empty slice. -/
theorem C8_counterexample_later_record_dropped :
    (fetch_and_index pathsC8 streamC8).2 = none ∧
      lookupA (fetch_and_index pathsC8 streamC8).1.by_uuid "u1" ≠ none ∧
      lookupA (fetch_and_index pathsC8 streamC8).1.by_uuid "u3" = none := by
  refine ⟨rfl, by decide, rfl⟩

def jrec1 : JVal :=
  .jobj [("visibleName".toList, .jstr "a".toList), ("parent".toList, .jstr "".toList),
    ("deleted".toList, .jbool false)]

def mdRec1 : Metadata := ⟨"a", "", false, ""⟩

/-- `{"visibleName":"c","parent":"","deleted":false}` — the valid prefix
of a record whose file carries trailing garbage. -/
def rec2coreC : List Char :=
  '{' :: ("\"visibleName\":\"c\",\"parent\":\"\",\"deleted\":false".toList ++ ['}'])

/-- A three-file fetch whose second `.metadata` file is a valid JSON
object followed by trailing garbage (`@`). -/
def streamD8 : List Char := rec1C ++ (rec2coreC ++ ['@']) ++ rec3C

def jrec2 : JVal :=
  .jobj [("visibleName".toList, .jstr "c".toList), ("parent".toList, .jstr "".toList),
    ("deleted".toList, .jbool false)]

def mdRec2 : Metadata := ⟨"c", "", false, ""⟩

/-- C8 (amended): a malformed record does not abort the fetch in either of
the two malformation shapes modelled here, but indexing never continues
with the remaining records.  (i) When the malformed record's text already
fails to parse at its first character (`streamC8`), the records before it
are indexed and the malformed record together with *all* records after it
is dropped.  (ii) When the malformed record is a valid JSON value followed
by trailing garbage (`streamD8`), `json.load` fails with `Extra data` at a
position past the value, the valid prefix is sliced out and indexed as a
record — the malformed record is treated as *present*, not absent — and
everything after the garbage is dropped.  In both cases the fetch returns
no error while later well-formed records are silently missing. -/
theorem C8_malformed_record_drops_rest (p1 p2 : String) (ps : List String) :
    (stream_read streamC8 = ([jrec1], false) ∧
      fetch_and_index (p1 :: ps) streamC8 =
        ((retrieve_metadata emptyIndex [(pathStem p1, mdRec1)]).1, none)) ∧
    (stream_read streamD8 = ([jrec1, jrec2], false) ∧
      fetch_and_index (p1 :: p2 :: ps) streamD8 =
        ((retrieve_metadata emptyIndex
          [(pathStem p1, mdRec1), (pathStem p2, mdRec2)]).1, none)) := by
  refine ⟨⟨rfl, ?_⟩, ⟨rfl, ?_⟩⟩
  · simp only [fetch_and_index]
    rw [show stream_read streamC8 = ([jrec1], false) from rfl]
    simp only [List.zip_cons_cons, List.zip_nil_right, List.map_cons, List.map_nil]
    rfl
  · simp only [fetch_and_index]
    rw [show stream_read streamD8 = ([jrec1, jrec2], false) from rfl]
    simp only [List.zip_cons_cons, List.zip_nil_right, List.map_cons, List.map_nil]
    rfl

end Resync
